import Mathlib

/-!
Shallow embedding of the node-embdr client library (lib/embdr.js and
lib/api/resources.js) together with theorems checking the natural-language
specification against the code.

The embedding models:
  * the request-data construction performed by the resources API
    (createFile / createLink / addSizes) and the sanitization and
    form-assembly performed by the generic request helper;
  * the submission and polling state machine of Embdr.prototype.process,
    with the lodash once-guards made explicit and callback invocations
    recorded in an ordered log;
  * the backoff-delay recurrence of the poller;
  * the retry-as-proxy recursion of the submitter;
  * the client configuration setters and URL construction.
-/

namespace Embdr

/-! ## Data model -/

/-- A server-side sub-job (thumbnail or image preview); only its status
field matters to the client. -/
structure Preview where
  status : String
deriving DecidableEq, Repr

/-- A resource as returned by the REST API: id, overall status, and the
two groups of sub-jobs. -/
structure Resource where
  id : String
  status : String
  thumbnails : List Preview
  images : List Preview
deriving DecidableEq, Repr

/-- An error object delivered to a creation or poll callback. The code
field is absent (none) for stream-read errors, which the source builds
without a code property. -/
structure ApiError where
  code : Option Nat
  message : String
deriving DecidableEq, Repr

/-- A JavaScript value stored under a size key of an options object:
undefined (absent property), an array of size strings, or a plain
string. -/
inductive SizeOpt where
  | undef
  | arr (l : List String)
  | str (s : String)
deriving DecidableEq, Repr

/-- A value stored in the request-data object handed to the request
helper: a binary stream (or buffer), a plain string, null, undefined, or
an array of strings. -/
inductive FieldVal where
  | stream
  | str (s : String)
  | null
  | undef
  | arrS (l : List String)
deriving DecidableEq, Repr

/-! ## resources.js: addSizes, createFile, createLink (request-data part) -/

/-- JavaScript property access on an options object: a missing key reads
as undefined. Models options[name] in addSizes. -/
def getProp : List (String × SizeOpt) → String → SizeOpt
  | [], _ => .undef
  | (k, v) :: rest, name => if k == name then v else getProp rest name

/-- JavaScript truthiness of a size-option value, as tested by the guard
if (!options[name]) return in addSizes: undefined and the empty string
are falsy; every array (even the empty one) is truthy. -/
def sizeOptTruthy : SizeOpt → Bool
  | .undef => false
  | .arr _ => true
  | .str s => !(s == "")

/-- The body of addSizes after the guard: an array is joined with commas,
a string is passed through. Models sizes.join on arrays. -/
def normalizeSizeOpt : SizeOpt → String
  | .undef => ""
  | .arr l => String.intercalate "," l
  | .str s => s

/-- JavaScript assignment data[name] = value on an object modelled as an
ordered association list: replace an existing binding, else append. -/
def setField : List (String × FieldVal) → String → FieldVal → List (String × FieldVal)
  | [], name, v => [(name, v)]
  | (k, w) :: rest, name, v =>
    if k == name then (name, v) :: rest else (k, w) :: setField rest name v

/-- Embedding of addSizes (src/lib/api/resources.js lines 84-94):
if (!options[name]) return; join arrays with commas; data[name] = sizes. -/
def addSizes (data : List (String × FieldVal)) (options : List (String × SizeOpt))
    (name : String) : List (String × FieldVal) :=
  let v := getProp options name
  if sizeOptTruthy v then setField data name (.str (normalizeSizeOpt v)) else data

/-- The request data built by createFile (src/lib/api/resources.js lines
40-43): the file stream, then addSizes for thumbnailSizes and
imagePreviewSizes. -/
def createFileData (options : List (String × SizeOpt)) : List (String × FieldVal) :=
  addSizes (addSizes [("file", .stream)] options "thumbnailSizes") options "imagePreviewSizes"

/-- The request data built by createLink (src/lib/api/resources.js lines
57-60): the link string, then addSizes for thumbnailSizes and
imagePreviewSizes. -/
def createLinkData (link : String) (options : List (String × SizeOpt)) :
    List (String × FieldVal) :=
  addSizes (addSizes [("link", .str link)] options "thumbnailSizes") options "imagePreviewSizes"

/-! ## The generic request helper (lib/embdr.js _request, data handling) -/

/-- JavaScript falsiness of a request-data value, as used by the lodash
compact call and by the multipart append guard: null, undefined and the
empty string are falsy; streams and arrays are truthy. -/
def jsFalsy : FieldVal → Bool
  | .null => true
  | .undef => true
  | .str s => s == ""
  | .stream => false
  | .arrS _ => false

/-- Whether a request-data value is a stream or buffer. -/
def isStreamVal : FieldVal → Bool
  | .stream => true
  | _ => false

/-- Embedding of the parameter sanitization in _request (lib/embdr.js
lines 306-319): delete null and undefined values, compact arrays and
delete them when they become empty. Note that empty strings are kept. -/
def sanitizeData : List (String × FieldVal) → List (String × FieldVal)
  | [] => []
  | (k, v) :: rest =>
    match v with
    | .null => sanitizeData rest
    | .undef => sanitizeData rest
    | .arrS l =>
      let l2 := l.filter (fun x => !(x == ""))
      if l2.isEmpty then sanitizeData rest else (k, .arrS l2) :: sanitizeData rest
    | .stream => (k, .stream) :: sanitizeData rest
    | .str s => (k, .str s) :: sanitizeData rest

/-- The multipart sort (lib/embdr.js lines 377-383): stream and buffer
parts are moved after the regular form fields. -/
def sortStreamsLast (data : List (String × FieldVal)) : List (String × FieldVal) :=
  data.filter (fun p => !(isStreamVal p.2)) ++ data.filter (fun p => isStreamVal p.2)

/-- The multipart append loop (lib/embdr.js lines 386-390): a part is
appended only when both its key and its value are truthy, so parts with
empty-string values are dropped. -/
def multipartParts (data : List (String × FieldVal)) : List (String × FieldVal) :=
  (sortStreamsLast data).filter (fun p => !(p.1 == "") && !(jsFalsy p.2))

/-- The fields actually transmitted by a POST in _request: the sanitized
data, sent as a multipart form when a stream or buffer is present
(dropping falsy parts at append time) and as a URL-encoded form
otherwise (lib/embdr.js lines 321-340 and 368-391). -/
def sentFields (data0 : List (String × FieldVal)) : List (String × FieldVal) :=
  let data := sanitizeData data0
  if data.isEmpty then []
  else if data.any (fun p => isStreamVal p.2) then multipartParts data
  else data

/-- Association-list lookup over request data (first binding wins), used
to state which fields a request carries. -/
def lookupData : List (String × FieldVal) → String → Option FieldVal
  | [], _ => none
  | (k, v) :: rest, name => if k == name then some v else lookupData rest name

/-! ## process: options and the create-options object -/

/-- The caller-supplied options of Embdr.prototype.process, reduced to
what the control flow inspects: which callbacks were supplied (before
any defaulting) and the two size options. -/
structure Options where
  hasStart : Bool
  hasError : Bool
  hasComplete : Bool
  hasImagesComplete : Bool
  hasThumbnailsComplete : Bool
  thumbnailsSizes : SizeOpt
  imagesSizes : SizeOpt
deriving DecidableEq, Repr

/-- Embedding of line 77 of lib/embdr.js: the polling decision is made
from the callbacks as supplied by the caller, before defaulting. -/
def hasPollingCallbacks (opts : Options) : Bool :=
  opts.hasComplete || opts.hasImagesComplete || opts.hasThumbnailsComplete

/-- The createOptions object built by process (lib/embdr.js lines
106-109): the thumbnail sizes are stored under key thumbnailSizes and
the image sizes under key imageSizes. -/
def processCreateOptions (opts : Options) : List (String × SizeOpt) :=
  [("thumbnailSizes", opts.thumbnailsSizes), ("imageSizes", opts.imagesSizes)]

/-! ## process: the once-guarded callbacks and the polling state machine -/

/-- The five callback slots built by process (lib/embdr.js lines 90-96). -/
inductive CbName where
  | start
  | error
  | complete
  | images
  | thumbnails
deriving DecidableEq, Repr

/-- The argument a callback is invoked with: a resource, an error, or a
list of previews (thumbnails or images). -/
inductive CbArg where
  | res (r : Resource)
  | err (e : ApiError)
  | previews (ps : List Preview)
deriving DecidableEq, Repr

/-- One recorded callback invocation. -/
structure LogEntry where
  name : CbName
  arg : CbArg
deriving DecidableEq, Repr

/-- The observable callback state of one process invocation: which
once-guards have been consumed, and the ordered log of the invocations
that actually reached the user callbacks. -/
structure CallState where
  fired : List CbName
  log : List LogEntry
deriving DecidableEq, Repr

/-- Invoking a slot wrapped by the lodash once combinator (lib/embdr.js
lines 88-96): the underlying callback runs only if the slot has not
fired yet. -/
def CallState.invoke (s : CallState) (n : CbName) (a : CbArg) : CallState :=
  if n ∈ s.fired then s else { fired := n :: s.fired, log := s.log ++ [⟨n, a⟩] }

/-- Initial polling delay (lib/embdr.js line 23). -/
def DEFAULT_POLLING_INITIAL_TIMEOUT : Nat := 2000

/-- Math.round (t / 4) for a natural number t, as computed at line 177 of
lib/embdr.js: division by four rounded half up. -/
def jsRound4 (t : Nat) : Nat := (t + 2) / 4

/-- The full state of one process invocation: the callback state, the
number of creator-callback invocations still outstanding, the number of
scheduled poll timers, the current polling timeout, and the number of
poll (GET) requests issued so far. -/
structure ProcState where
  cs : CallState
  createPending : Nat
  pollPending : Nat
  pollingTimeout : Nat
  pollCount : Nat
deriving DecidableEq, Repr

/-- The thumbnailsDone test of the poll body (lib/embdr.js lines
152-155): no thumbnail sub-job has status pending. -/
def thumbnailsDone (r : Resource) : Bool :=
  (r.thumbnails.filter (fun p => p.status == "pending")).isEmpty

/-- The imagesDone test of the poll body (lib/embdr.js lines 161-164):
no image sub-job has status pending. -/
def imagesDone (r : Resource) : Bool :=
  (r.images.filter (fun p => p.status == "pending")).isEmpty

/-- The retry-as-proxy condition (lib/embdr.js line 116): a 400 error
with this exact message. Note that the condition inspects only the
error, never the submitted item. -/
def isRetryErr (e : ApiError) : Bool :=
  e.code == some 400 && e.message == "Unable to handle a link because it could not be reached"

/-- Embedding of the creator-callback body of process (lib/embdr.js
lines 110-137) for one invocation. On the retry error the source
re-submits through a fresh recursive process call and invokes no
callback of this invocation; on another error it invokes the error
slot. On success it invokes start, completes immediately for a
non-pending resource, stops when no polling callback was supplied, and
otherwise schedules the first poll with the initial timeout (lines
139-140 and 184). -/
def createBody (opts : Options) (s : ProcState) (o : Except ApiError Resource) : ProcState :=
  match o with
  | .error e =>
    if isRetryErr e then s
    else { s with cs := s.cs.invoke .error (.err e) }
  | .ok r =>
    let s1 := { s with cs := s.cs.invoke .start (.res r) }
    if !(r.status == "pending") then
      { s1 with cs := s1.cs.invoke .complete (.res r) }
    else if !(hasPollingCallbacks opts) then s1
    else { s1 with
           pollingTimeout := DEFAULT_POLLING_INITIAL_TIMEOUT,
           pollPending := s1.pollPending + 1 }

/-- Embedding of the poll body (lib/embdr.js lines 144-181). On a fetch
error the error slot is invoked and no further poll is scheduled. On
success the milestone checks run: when the thumbnails are done the
thumbnails slot is invoked with the thumbnail list, and when the images
are done the source again invokes the thumbnails slot, with the image
list (line 166 calls callbacks.thumbnails, not callbacks.images). A
non-pending resource completes; a pending one increases the timeout by
its rounded quarter and schedules another poll. -/
def pollBody (s : ProcState) (o : Except ApiError Resource) : ProcState :=
  match o with
  | .error e => { s with cs := s.cs.invoke .error (.err e) }
  | .ok r =>
    let s1 := if thumbnailsDone r then
        { s with cs := s.cs.invoke .thumbnails (.previews r.thumbnails) } else s
    let s2 := if imagesDone r then
        { s1 with cs := s1.cs.invoke .thumbnails (.previews r.images) } else s1
    if !(r.status == "pending") then
      { s2 with cs := s2.cs.invoke .complete (.res r) }
    else
      { s2 with
        pollingTimeout := s2.pollingTimeout + jsRound4 s2.pollingTimeout,
        pollPending := s2.pollPending + 1 }

/-- An internal event of one process invocation: a creator-callback
invocation with its outcome, or the firing of a scheduled poll timer
together with the outcome of its GET request. -/
inductive Ev where
  | create (o : Except ApiError Resource)
  | poll (o : Except ApiError Resource)
deriving Repr

/-- One step of the event semantics: a create event consumes an
outstanding creator-callback invocation, a poll event consumes a
scheduled poll timer and issues one GET request; events with nothing
outstanding cannot occur and leave the state unchanged. -/
def step (opts : Options) (s : ProcState) (e : Ev) : ProcState :=
  match e with
  | .create o =>
    if s.createPending == 0 then s
    else createBody opts { s with createPending := s.createPending - 1 } o
  | .poll o =>
    if s.pollPending == 0 then s
    else pollBody { s with pollPending := s.pollPending - 1, pollCount := s.pollCount + 1 } o

/-- Running a sequence of internal events. -/
def run (opts : Options) (s : ProcState) (events : List Ev) : ProcState :=
  events.foldl (step opts) s

/-- The initial state of a process invocation: no callback has fired,
cp creator-callback invocations are outstanding (one for a link
submission; a file stream can add a stream-error invocation), no poll
is scheduled and none has been issued. -/
def mkInit (cp : Nat) : ProcState :=
  { cs := { fired := [], log := [] },
    createPending := cp,
    pollPending := 0,
    pollingTimeout := DEFAULT_POLLING_INITIAL_TIMEOUT,
    pollCount := 0 }

/-- How many times a named callback appears in the invocation log. -/
def countName (log : List LogEntry) (n : CbName) : Nat :=
  (log.filter (fun e => e.name == n)).length

/-! ## The backoff-delay sequence of the poller -/

/-- The successive polling delays with the default initial timeout and
backoff denominator: the first delay is 2000 (lib/embdr.js lines 140 and
184) and each later delay adds the rounded quarter of the previous one
(line 177). -/
def backoffDelay : Nat → Nat
  | 0 => DEFAULT_POLLING_INITIAL_TIMEOUT
  | n + 1 => backoffDelay n + jsRound4 (backoffDelay n)

/-! ## The submitter and its retry-as-proxy recursion -/

/-- The item handed to one submission: a string (a link when it starts
with http, a disk path otherwise), a stream or buffer, or the stream
obtained by fetching a previous item with the request library, as built
by the retry at line 117 of lib/embdr.js. -/
inductive Item where
  | strItem (s : String)
  | streamItem
  | bufferItem
  | fetched (i : Item)
deriving DecidableEq, Repr

/-- The creator classification of process (lib/embdr.js lines 100-103):
only a string item whose first four characters are http is submitted as
a link; everything else is submitted as a file. -/
def creatorIsLink : Item → Bool
  | .strItem s => s.take 4 == "http"
  | _ => false

/-- The sequence of items submitted by process for a given item and a
given sequence of creation outcomes, one outcome per submission
(lib/embdr.js lines 110-123): a creation outcome matching the
retry condition causes a re-submission of the fetched item, any other
outcome stops the recursion. -/
def submitItems (i : Item) : List (Except ApiError Resource) → List Item
  | [] => [i]
  | .error e :: rest =>
    if isRetryErr e then i :: submitItems (.fetched i) rest else [i]
  | .ok _ :: _ => [i]

/-- The creation error finally passed to the error callback for a given
sequence of creation outcomes (lib/embdr.js line 121): the first
outcome that is an error not matching the retry condition, surfaced
unmodified. -/
def surfacedError : List (Except ApiError Resource) → Option ApiError
  | [] => none
  | .error e :: rest => if isRetryErr e then surfacedError rest else some e
  | .ok _ :: _ => none

/-! ## Client configuration (lib/embdr.js lines 15-19 and 195-262) -/

/-- The _api field record of an Embdr instance. -/
structure ApiState where
  auth : Option String
  host : String
  port : String
  basePath : String
  protocol : String
  strictSSL : Option Bool
deriving DecidableEq, Repr

/-- The configuration defaults (lib/embdr.js lines 15-19 and 44-50). -/
def defaultApi : ApiState :=
  { auth := none, host := "embdr.io", port := "80", basePath := "/api",
    protocol := "http", strictSSL := none }

/-- The toLowerCase call applied by two of the setters, modelled over
the character list; Char.toLower matches its behavior on the ASCII
configuration strings at hand. -/
def jsToLower (s : String) : String := String.mk (s.toList.map Char.toLower)

/-- setProtocol (lib/embdr.js lines 219-221): stores the lowercased
protocol. -/
def setProtocol (a : ApiState) (protocol : String) : ApiState :=
  { a with protocol := jsToLower protocol }

/-- setBasePath (lib/embdr.js lines 228-230): stores the lowercased base
path. -/
def setBasePath (a : ApiState) (basePath : String) : ApiState :=
  { a with basePath := jsToLower basePath }

/-- setPort (lib/embdr.js lines 210-212): stores the port verbatim. -/
def setPort (a : ApiState) (port : String) : ApiState :=
  { a with port := port }

/-- setStrictSSL (lib/embdr.js lines 237-239): stores the flag
verbatim. -/
def setStrictSSL (a : ApiState) (strictSSL : Bool) : ApiState :=
  { a with strictSSL := some strictSSL }

/-- setHost (lib/embdr.js lines 195-203): stores the host verbatim and
forwards truthy optional port and protocol arguments. -/
def setHost (a : ApiState) (host : String) (port : Option String)
    (protocol : Option String) : ApiState :=
  let a1 := { a with host := host }
  let a2 := match port with
    | some p => if p == "" then a1 else setPort a1 p
    | none => a1
  match protocol with
  | some pr => if pr == "" then a2 else setProtocol a2 pr
  | none => a2

/-- The standard base64 alphabet used by Buffer.toString with the base64
encoding. -/
def base64Alphabet : List Char :=
  "ABCDEFGHIJKLMNOPQRSTUVWXYZabcdefghijklmnopqrstuvwxyz0123456789+/".toList

/-- The base64 digit for a 6-bit group. -/
def b64c (n : Nat) : Char := base64Alphabet.getD n '?'

/-- Base64 encoding of a byte sequence, with padding. -/
def base64encode : List Nat → String
  | [] => ""
  | [a] => String.mk [b64c (a / 4), b64c (a % 4 * 16), '=', '=']
  | [a, b] => String.mk [b64c (a / 4), b64c (a % 4 * 16 + b / 16), b64c (b % 16 * 4), '=']
  | a :: b :: c :: rest =>
    String.mk [b64c (a / 4), b64c (a % 4 * 16 + b / 16),
               b64c (b % 16 * 4 + c / 64), b64c (c % 64)] ++ base64encode rest

/-- The bytes of a string; the API keys at hand are ASCII, where the
UTF-8 bytes are the character codes. -/
def strBytes (s : String) : List Nat := s.toList.map Char.toNat

/-- setApiKey (lib/embdr.js lines 246-251): a truthy key stores the
basic-auth header value built from the key followed by a colon, base64
encoded; the key itself is used verbatim, never case-folded. -/
def setApiKey (a : ApiState) (key : String) : ApiState :=
  if key == "" then a
  else { a with auth := some ("Basic " ++ base64encode (strBytes (key ++ ":"))) }

/-- The util.format percent-d conversion applied to the stored port at
line 295 of lib/embdr.js: a numeric string prints as the number, an
unparsable one as NaN. -/
def jsFormatD (s : String) : String :=
  match s.toNat? with
  | some n => toString n
  | none => "NaN"

/-- The request URL built by _request (lib/embdr.js line 295) from the
stored configuration fields. -/
def buildUrl (a : ApiState) (path : String) : String :=
  a.protocol ++ "://" ++ a.host ++ ":" ++ jsFormatD a.port ++ a.basePath ++ path

/-! ## Shared helper lemmas and concrete fixtures -/

/-- An options record with every callback supplied. -/
def optsAll : Options := ⟨true, true, true, true, true, .undef, .undef⟩

/-- The state of an invocation that is waiting for one scheduled poll:
the creator callback has been consumed and one poll timer is
outstanding. The callback state is left empty because the claims using
this fixture quantify over or inspect only the poll transition. -/
def procPolling : ProcState := ⟨⟨[], []⟩, 0, 1, 2000, 0⟩

/-- A creation error matching the retry-as-proxy condition. -/
def retryErr : ApiError :=
  ⟨some 400, "Unable to handle a link because it could not be reached"⟩

/-- A transport error, as built by the request helper at line 345. -/
def otherErr : ApiError :=
  ⟨some 500, "Something went wrong trying to contact the server"⟩

lemma backoffDelay_ge (n : Nat) : 2000 ≤ backoffDelay n := by
  induction n with
  | zero => simp [backoffDelay, DEFAULT_POLLING_INITIAL_TIMEOUT]
  | succ n ih =>
    have h2 : backoffDelay (n + 1) = backoffDelay n + jsRound4 (backoffDelay n) := by
      simp [backoffDelay]
    omega

lemma run_cons (opts : Options) (s : ProcState) (e : Ev) (evs : List Ev) :
    run opts s (e :: evs) = run opts (step opts s e) evs := rfl

lemma run_stuck (opts : Options) (events : List Ev) :
    ∀ s : ProcState, s.createPending = 0 → s.pollPending = 0 → run opts s events = s := by
  induction events with
  | nil => intro s _ _; rfl
  | cons e rest ih =>
    intro s h1 h2
    have hstep : step opts s e = s := by
      cases e with
      | create o => simp [step, h1]
      | poll o => simp [step, h2]
    rw [run_cons, hstep]
    exact ih s h1 h2

/-- The once-guard invariant: a slot that has fired appears exactly once
in the log, a slot that has not fired appears zero times. -/
def CSOk (cs : CallState) : Prop :=
  ∀ n : CbName,
    (n ∈ cs.fired → countName cs.log n = 1) ∧ (n ∉ cs.fired → countName cs.log n = 0)

lemma countName_append_single (log : List LogEntry) (en : LogEntry) (n : CbName) :
    countName (log ++ [en]) n = countName log n + (if en.name = n then 1 else 0) := by
  by_cases h : en.name = n
  · simp [countName, List.filter_append, h]
  · simp [countName, List.filter_append, h]

lemma CSOk_invoke (cs : CallState) (h : CSOk cs) (m : CbName) (a : CbArg) :
    CSOk (cs.invoke m a) := by
  unfold CallState.invoke
  split
  · exact h
  · rename_i hm
    intro n
    constructor
    · intro hn
      rcases List.mem_cons.mp hn with hnm | hn2
      · subst hnm
        rw [countName_append_single]
        have h0 := (h n).2 hm
        simp [h0]
      · have hnm : ¬ m = n := fun hh => hm (hh ▸ hn2)
        rw [countName_append_single]
        simp [hnm]
        exact (h n).1 hn2
    · intro hn
      have hn1 : n ∉ cs.fired := fun hh => hn (List.mem_cons_of_mem _ hh)
      have hnm : ¬ m = n := fun hh => hn (hh ▸ List.mem_cons_self _ _)
      rw [countName_append_single]
      simp [hnm]
      exact (h n).2 hn1

lemma CSOk_createBody (opts : Options) (s : ProcState) (o : Except ApiError Resource)
    (h : CSOk s.cs) : CSOk (createBody opts s o).cs := by
  cases o with
  | error e =>
    by_cases hre : isRetryErr e = true
    · simpa [createBody, hre] using h
    · simpa [createBody, hre] using CSOk_invoke _ h .error (.err e)
  | ok r =>
    by_cases hs : (r.status == "pending") = true <;>
      by_cases hp : hasPollingCallbacks opts = true <;>
      simp [createBody, hs, hp] <;>
      first
        | exact h
        | exact CSOk_invoke _ h _ _
        | exact CSOk_invoke _ (CSOk_invoke _ h _ _) _ _

lemma CSOk_pollBody (s : ProcState) (o : Except ApiError Resource)
    (h : CSOk s.cs) : CSOk (pollBody s o).cs := by
  cases o with
  | error e => exact CSOk_invoke _ h _ _
  | ok r =>
    cases hT : thumbnailsDone r <;> cases hI : imagesDone r <;>
      cases hS : r.status == "pending" <;>
      simp [pollBody, hT, hI, hS] <;>
      first
        | exact h
        | exact CSOk_invoke _ h _ _
        | exact CSOk_invoke _ (CSOk_invoke _ h _ _) _ _
        | exact CSOk_invoke _ (CSOk_invoke _ (CSOk_invoke _ h _ _) _ _) _ _

lemma CSOk_step (opts : Options) (s : ProcState) (e : Ev) (h : CSOk s.cs) :
    CSOk (step opts s e).cs := by
  cases e with
  | create o =>
    by_cases hc : (s.createPending == 0) = true
    · simpa [step, hc] using h
    · simpa [step, hc] using
        CSOk_createBody opts { s with createPending := s.createPending - 1 } o h
  | poll o =>
    by_cases hc : (s.pollPending == 0) = true
    · simpa [step, hc] using h
    · simpa [step, hc] using
        CSOk_pollBody { s with pollPending := s.pollPending - 1, pollCount := s.pollCount + 1 } o h

lemma CSOk_run (opts : Options) (events : List Ev) :
    ∀ s : ProcState, CSOk s.cs → CSOk (run opts s events).cs := by
  induction events with
  | nil => intro s h; exact h
  | cons e rest ih =>
    intro s h
    rw [run_cons]
    exact ih _ (CSOk_step opts s e h)

lemma CSOk_mkInit (cp : Nat) : CSOk (mkInit cp).cs := by
  intro n
  constructor
  · intro hn
    simp [mkInit] at hn
  · intro _
    simp [mkInit, countName]

lemma lookupData_setField_ne (data : List (String × FieldVal)) (name key : String)
    (v : FieldVal) (h : ¬ name = key) :
    lookupData (setField data name v) key = lookupData data key := by
  induction data with
  | nil => simp [setField, lookupData, h]
  | cons p rest ih =>
    obtain ⟨k, w⟩ := p
    simp only [setField]
    by_cases hk : (k == name) = true
    · have hkn : k = name := by simpa using hk
      subst hkn
      simp [lookupData, h]
    · rw [if_neg hk]
      simp only [lookupData]
      by_cases hky : (k == key) = true
      · simp [hky]
      · simp [hky, ih]

lemma lookupData_addSizes_ne (data : List (String × FieldVal))
    (o : List (String × SizeOpt)) (name key : String) (h : ¬ name = key) :
    lookupData (addSizes data o name) key = lookupData data key := by
  by_cases hT : sizeOptTruthy (getProp o name) = true
  · simp [addSizes, hT, lookupData_setField_ne data name key _ h]
  · simp [addSizes, hT]

/-! ## The claims -/

/-- C1: the source defines a distinct once-guarded slot for the
images-complete callback, yet on a poll where every image sub-job has
left the pending status the poll body invokes the thumbnails slot with
the image list (lib/embdr.js line 166): the images slot never fires, and
the consumed thumbnails guard then suppresses the genuine thumbnails
notification of a later poll. This theorem evaluates the code at such a
poll: the first poll finds the images done (thumbnails still pending)
and logs a thumbnails invocation carrying the image list; a second poll
finding the thumbnails done adds nothing to the log. -/
theorem c1_images_callback_never_invoked :
    (step optsAll procPolling
        (Ev.poll (Except.ok ⟨"r1", "pending", [⟨"pending"⟩], [⟨"done"⟩]⟩))).cs.log =
      [⟨CbName.thumbnails, CbArg.previews [⟨"done"⟩]⟩] ∧
    CbName.images ∉
      (step optsAll procPolling
        (Ev.poll (Except.ok ⟨"r1", "pending", [⟨"pending"⟩], [⟨"done"⟩]⟩))).cs.fired ∧
    CbName.thumbnails ∈
      (step optsAll procPolling
        (Ev.poll (Except.ok ⟨"r1", "pending", [⟨"pending"⟩], [⟨"done"⟩]⟩))).cs.fired ∧
    (step optsAll
        (step optsAll procPolling
          (Ev.poll (Except.ok ⟨"r1", "pending", [⟨"pending"⟩], [⟨"done"⟩]⟩)))
        (Ev.poll (Except.ok ⟨"r1", "pending", [⟨"done"⟩], [⟨"done"⟩]⟩))).cs.log =
      [⟨CbName.thumbnails, CbArg.previews [⟨"done"⟩]⟩] := by
  decide

/-- C2: the spec says a non-empty options.images.sizes reaches the
creation call as an imagePreviewSizes field. The code stores the image
sizes under the key imageSizes (lib/embdr.js line 108) while addSizes
reads the key imagePreviewSizes (src/lib/api/resources.js lines 42 and
59), so no image-size field of either name is ever part of the request
data, and at the concrete failing input the multipart request carries
only the file field. -/
theorem c2_image_preview_sizes_never_sent (opts : Options) (link : String) :
    lookupData (createFileData (processCreateOptions opts)) "imagePreviewSizes" = none ∧
    lookupData (createLinkData link (processCreateOptions opts)) "imagePreviewSizes" = none ∧
    lookupData (createFileData (processCreateOptions opts)) "imageSizes" = none ∧
    sentFields (createFileData (processCreateOptions
        ⟨true, false, false, true, false, .undef, .arr ["1200x", "x600"]⟩)) =
      [("file", FieldVal.stream)] := by
  have hundef : getProp (processCreateOptions opts) "imagePreviewSizes" = SizeOpt.undef := rfl
  have hskip : ∀ data : List (String × FieldVal),
      addSizes data (processCreateOptions opts) "imagePreviewSizes" = data := by
    intro data
    simp [addSizes, hundef, sizeOptTruthy]
  refine ⟨?_, ?_, ?_, by decide⟩
  · rw [createFileData, hskip, lookupData_addSizes_ne _ _ _ _ (by decide)]
    rfl
  · rw [createLinkData, hskip, lookupData_addSizes_ne _ _ _ _ (by decide)]
    rfl
  · rw [createFileData, hskip, lookupData_addSizes_ne _ _ _ _ (by decide)]
    rfl

/-- C3 counterexample: the claim says an empty size list leads to the
field being omitted and an empty string never being sent, but submitting
a link with an empty thumbnail-size list sends the URL-encoded form
field thumbnailSizes with the empty string: the guard in addSizes treats
the empty array as truthy and stores the empty join, and neither the
sanitization nor the URL-encoded form path drops empty strings. -/
theorem c3_counterexample :
    sentFields (createLinkData "http://example.com"
        [("thumbnailSizes", SizeOpt.arr []), ("imageSizes", SizeOpt.undef)]) =
      [("link", FieldVal.str "http://example.com"), ("thumbnailSizes", FieldVal.str "")] := by
  decide

/-- C3 amended: a size option given as an array is joined with commas
into a single string and stored under its field name, and an absent or
undefined option leaves the data untouched; but an option given as the
empty list stores the empty string, which survives sanitization and is
sent on URL-encoded link submissions, and is dropped only by the
append guard of the multipart file path. -/
theorem c3_size_normalization_amended (data : List (String × FieldVal))
    (v : List String) (link : String) :
    addSizes data [("thumbnailSizes", SizeOpt.arr v)] "thumbnailSizes" =
      setField data "thumbnailSizes" (.str (String.intercalate "," v)) ∧
    addSizes data [("thumbnailSizes", SizeOpt.undef)] "thumbnailSizes" = data ∧
    addSizes data [] "thumbnailSizes" = data ∧
    lookupData (sentFields (createLinkData link
        [("thumbnailSizes", SizeOpt.arr []), ("imageSizes", SizeOpt.undef)]))
      "thumbnailSizes" = some (.str "") ∧
    sentFields (createFileData
        [("thumbnailSizes", SizeOpt.arr []), ("imageSizes", SizeOpt.undef)]) =
      [("file", FieldVal.stream)] := by
  refine ⟨?_, ?_, ?_, ?_, by decide⟩
  · simp [addSizes, getProp, sizeOptTruthy, normalizeSizeOpt]
  · simp [addSizes, getProp, sizeOptTruthy]
  · simp [addSizes, getProp, sizeOptTruthy]
  · simp [createLinkData, addSizes, getProp, sizeOptTruthy, normalizeSizeOpt, setField,
      sentFields, sanitizeData, multipartParts, sortStreamsLast, isStreamVal, jsFalsy,
      lookupData]
    decide

/-- C4: within one process invocation, every internal event sequence
(creator-callback invocations with any outcomes, including the
retry-triggering error and any number of poll timer firings with any
outcomes) leaves each of the five once-guarded callback slots invoked at
most once; a slot whose guard has been consumed was invoked exactly
once, and an unconsumed slot was never invoked. -/
theorem c4_callbacks_at_most_once (opts : Options) (cp : Nat) (events : List Ev)
    (n : CbName) :
    countName (run opts (mkInit cp) events).cs.log n ≤ 1 ∧
    (n ∈ (run opts (mkInit cp) events).cs.fired →
      countName (run opts (mkInit cp) events).cs.log n = 1) ∧
    (n ∉ (run opts (mkInit cp) events).cs.fired →
      countName (run opts (mkInit cp) events).cs.log n = 0) := by
  have h := CSOk_run opts events (mkInit cp) (CSOk_mkInit cp) n
  refine ⟨?_, h.1, h.2⟩
  by_cases hm : n ∈ (run opts (mkInit cp) events).cs.fired
  · rw [h.1 hm]
  · rw [h.2 hm]
    omega

/-- C5 counterexample: the claim says the retry happens exactly once and
a failing retry never re-submits, but the retry guard inspects only the
error (lib/embdr.js line 116), so a link submission answered twice by
the exact 400 link-unreachable error performs two re-submissions: three
creation calls in total. -/
theorem c5_counterexample :
    submitItems (Item.strItem "http://private/a")
        [Except.error retryErr, Except.error retryErr] =
      [Item.strItem "http://private/a",
       Item.fetched (Item.strItem "http://private/a"),
       Item.fetched (Item.fetched (Item.strItem "http://private/a"))] := by
  decide

/-- C5 amended: a creation failure with the exact 400 link-unreachable
error causes one re-submission of the fetched content, which is
classified as a file, and any creation error not matching that
condition is passed unmodified to the error callback with no further
submission — also in the retry attempt; only a repeat of the exact
retry error in the retry attempt re-submits again, because the guard
never inspects the submitted item. -/
theorem c5_retry_amended (u : String) (e e2 : ApiError) (r : Resource)
    (rest : List (Except ApiError Resource))
    (he : isRetryErr e = true) (he2 : isRetryErr e2 = false) :
    submitItems (Item.strItem u) [Except.error e, Except.error e2] =
      [Item.strItem u, Item.fetched (Item.strItem u)] ∧
    surfacedError [Except.error e, Except.error e2] = some e2 ∧
    submitItems (Item.strItem u) (Except.error e :: Except.ok r :: rest) =
      [Item.strItem u, Item.fetched (Item.strItem u)] ∧
    creatorIsLink (Item.fetched (Item.strItem u)) = false ∧
    submitItems (Item.strItem u) (Except.error e2 :: rest) = [Item.strItem u] ∧
    surfacedError (Except.error e2 :: rest) = some e2 := by
  refine ⟨?_, ?_, ?_, rfl, ?_, ?_⟩ <;>
    simp [submitItems, surfacedError, he, he2]

/-- C5 witness: the amended theorem applied at a link answered first by
the retry error and then by a transport error. -/
theorem c5_retry_amended_witness :
    submitItems (Item.strItem "http://x") [Except.error retryErr, Except.error otherErr] =
      [Item.strItem "http://x", Item.fetched (Item.strItem "http://x")] :=
  (c5_retry_amended "http://x" retryErr otherErr ⟨"id", "done", [], []⟩ []
    (by decide) (by decide)).1

/-- C6: with the default initial timeout 2000 and backoff denominator 4,
the successive polling delays are 2000, 2500, 3125, 3906, and so on;
each delay adds the rounded quarter of the previous one and the
sequence strictly increases. -/
theorem c6_backoff_growth :
    backoffDelay 0 = 2000 ∧ backoffDelay 1 = 2500 ∧ backoffDelay 2 = 3125 ∧
    backoffDelay 3 = 3906 ∧
    (∀ n, backoffDelay (n + 1) = backoffDelay n + jsRound4 (backoffDelay n)) ∧
    (∀ n, backoffDelay n < backoffDelay (n + 1)) := by
  refine ⟨by decide, by decide, by decide, by decide, fun n => by simp [backoffDelay], ?_⟩
  intro n
  have hge := backoffDelay_ge n
  have heq : backoffDelay (n + 1) = backoffDelay n + jsRound4 (backoffDelay n) := by
    simp [backoffDelay]
  have hpos : 0 < jsRound4 (backoffDelay n) := by
    unfold jsRound4
    exact Nat.div_pos (by omega) (by omega)
  omega

/-- C7: a created resource with pending status together with options in
which none of the three polling-relevant callbacks was supplied by the
caller — the decision predicate reads the options before any
defaulting — leads to no poll request ever being issued, whatever
events follow. -/
theorem c7_no_poll_when_uninterested (opts : Options) (r : Resource) (rest : List Ev)
    (h1 : opts.hasComplete = false) (h2 : opts.hasImagesComplete = false)
    (h3 : opts.hasThumbnailsComplete = false) (hr : r.status = "pending") :
    (run opts (mkInit 1) (Ev.create (Except.ok r) :: rest)).pollCount = 0 := by
  have hpc : hasPollingCallbacks opts = false := by
    simp [hasPollingCallbacks, h1, h2, h3]
  have hstep : step opts (mkInit 1) (Ev.create (Except.ok r)) =
      { cs := { fired := [CbName.start], log := [⟨CbName.start, CbArg.res r⟩] },
        createPending := 0, pollPending := 0,
        pollingTimeout := DEFAULT_POLLING_INITIAL_TIMEOUT, pollCount := 0 } := by
    simp [step, mkInit, createBody, hr, hpc, CallState.invoke]
  rw [run_cons, hstep, run_stuck opts rest _ rfl rfl]

/-- C7 witness: the theorem applied to a pending resource with only the
start and error callbacks supplied and no further events. -/
theorem c7_no_poll_when_uninterested_witness :
    (run ⟨true, true, false, false, false, .undef, .undef⟩ (mkInit 1)
        [Ev.create (Except.ok ⟨"id", "pending", [], []⟩)]).pollCount = 0 :=
  c7_no_poll_when_uninterested ⟨true, true, false, false, false, .undef, .undef⟩
    ⟨"id", "pending", [], []⟩ [] rfl rfl rfl rfl

/-- C8: a successful submission whose created resource is not pending
invokes start and then complete with that resource — the log holds
exactly these two invocations in this order — and no poll request is
ever issued, whatever events follow. -/
theorem c8_immediate_completion (opts : Options) (r : Resource) (rest : List Ev)
    (hr : ¬ r.status = "pending") :
    (run opts (mkInit 1) (Ev.create (Except.ok r) :: rest)).cs.log =
      [⟨CbName.start, CbArg.res r⟩, ⟨CbName.complete, CbArg.res r⟩] ∧
    (run opts (mkInit 1) (Ev.create (Except.ok r) :: rest)).pollCount = 0 := by
  have hb : (r.status == "pending") = false := by
    simp [hr]
  have hstep : step opts (mkInit 1) (Ev.create (Except.ok r)) =
      { cs := { fired := [CbName.complete, CbName.start],
                log := [⟨CbName.start, CbArg.res r⟩, ⟨CbName.complete, CbArg.res r⟩] },
        createPending := 0, pollPending := 0,
        pollingTimeout := DEFAULT_POLLING_INITIAL_TIMEOUT, pollCount := 0 } := by
    simp [step, mkInit, createBody, hb, CallState.invoke]
  rw [run_cons, hstep, run_stuck opts rest _ rfl rfl]
  exact ⟨rfl, rfl⟩

/-- C8 witness: the theorem applied to a resource created with a
non-pending status and no further events. -/
theorem c8_immediate_completion_witness :
    (run optsAll (mkInit 1) [Ev.create (Except.ok ⟨"id", "done", [], []⟩)]).cs.log =
      [⟨CbName.start, CbArg.res ⟨"id", "done", [], []⟩⟩,
       ⟨CbName.complete, CbArg.res ⟨"id", "done", [], []⟩⟩] ∧
    (run optsAll (mkInit 1) [Ev.create (Except.ok ⟨"id", "done", [], []⟩)]).pollCount = 0 :=
  c8_immediate_completion optsAll ⟨"id", "done", [], []⟩ [] (by decide)

/-- C9: when a scheduled poll reports a fetch error, the error slot is
invoked with that error (the log gains at most that one entry, and
exactly that entry when the error guard was still unconsumed), no
milestone or complete entry is added by that poll, no further poll is
scheduled, and the whole invocation is permanently halted: every later
event leaves the state unchanged, so the poll count never grows
again. -/
theorem c9_poll_error_halts (opts : Options) (s : ProcState) (e : ApiError)
    (rest : List Ev) (hc : s.createPending = 0) (hp : s.pollPending = 1) :
    ((step opts s (Ev.poll (Except.error e))).cs.log = s.cs.log ∨
     (step opts s (Ev.poll (Except.error e))).cs.log =
       s.cs.log ++ [⟨CbName.error, CbArg.err e⟩]) ∧
    (CbName.error ∉ s.cs.fired →
      (step opts s (Ev.poll (Except.error e))).cs.log =
        s.cs.log ++ [⟨CbName.error, CbArg.err e⟩]) ∧
    (step opts s (Ev.poll (Except.error e))).pollPending = 0 ∧
    (step opts s (Ev.poll (Except.error e))).pollCount = s.pollCount + 1 ∧
    run opts (step opts s (Ev.poll (Except.error e))) rest =
      step opts s (Ev.poll (Except.error e)) := by
  have hstep : step opts s (Ev.poll (Except.error e)) =
      { s with cs := s.cs.invoke .error (.err e),
               pollPending := 0, pollCount := s.pollCount + 1 } := by
    simp [step, hp, pollBody]
  rw [hstep]
  refine ⟨?_, ?_, rfl, rfl, run_stuck opts rest _ hc rfl⟩
  · by_cases hf : CbName.error ∈ s.cs.fired
    · left
      simp [CallState.invoke, hf]
    · right
      simp [CallState.invoke, hf]
  · intro hf
    simp [CallState.invoke, hf]

/-- C9 witness: the theorem applied to an invocation with one poll
outstanding, answered by a transport error, with no further events. -/
theorem c9_poll_error_halts_witness :
    (step optsAll procPolling (Ev.poll (Except.error otherErr))).pollPending = 0 :=
  (c9_poll_error_halts optsAll procPolling otherErr [] rfl rfl).2.2.1

/-- C10: setProtocol and setBasePath store the lowercased argument —
for example setBasePath with /API stores /api — while setHost, setPort
and setStrictSSL store their arguments verbatim and setApiKey builds
the stored credential from the key verbatim, never case-folded; every
request URL is then built from the stored fields. -/
theorem c10_config_setters (a : ApiState) (p b h prt k path : String) (ssl : Bool)
    (hk : ¬ k = "") :
    (setProtocol a p).protocol = jsToLower p ∧
    (setBasePath a b).basePath = jsToLower b ∧
    (setHost a h none none).host = h ∧
    (setPort a prt).port = prt ∧
    (setStrictSSL a ssl).strictSSL = some ssl ∧
    (setApiKey a k).auth = some ("Basic " ++ base64encode (strBytes (k ++ ":"))) ∧
    (setBasePath a "/API").basePath = "/api" ∧
    (setProtocol a "HTTP").protocol = "http" ∧
    buildUrl a path =
      a.protocol ++ "://" ++ a.host ++ ":" ++ jsFormatD a.port ++ a.basePath ++ path := by
  refine ⟨rfl, rfl, rfl, rfl, rfl, ?_, ?_, ?_, rfl⟩
  · simp [setApiKey, hk]
  · show jsToLower "/API" = "/api"
    decide
  · show jsToLower "HTTP" = "http"
    decide

/-- C10 witness: the theorem applied to the default configuration and a
concrete mixed-case key. -/
theorem c10_config_setters_witness :
    (setApiKey defaultApi "MyKey").auth =
      some ("Basic " ++ base64encode (strBytes ("MyKey" ++ ":"))) :=
  (c10_config_setters defaultApi "HTTPS" "/API" "example.org" "8080" "MyKey"
    "/resources" true (by decide)).2.2.2.2.2.1

end Embdr
